import Mathlib

/-!
Verification of the mini-emulator core (instruction codec, PCB serialization,
storage allocator, parser operand validation, CPU tick, dispatcher and the
Unblock handler) against its natural-language specification.

The Rust source is shallowly embedded: `u8` and `usize` values are `Nat`
(the `u8`-typed record fields are only ever populated with values < 256 in
the source, and all arithmetic that can overflow or underflow is modelled
with checked operations returning `Option`, matching the debug-build panic
semantics of the reference binary). A panic (failed slice index, failed
`copy_from_slice` length check, `todo!()` arm, arithmetic overflow) is
modelled as `none`. `to_ne_bytes` is modelled little-endian, matching the
x86-64 host the program targets. Wall-clock fields (`Instant`, `Duration`)
carry no data relevant to any proved property and are omitted.
-/

namespace Emu

/-- The 16 opcodes of `emulator/instruction.rs`. -/
inductive Operation where
  | PARAM | MOV | SWAP | CMP | ADD | SUB | LOAD | STORE
  | INC | DEC | INT | JMP | JE | JNE | PUSH | POP
deriving DecidableEq, Repr

/-- `impl From<Operation> for u8`: stable codes 1..16. -/
def Operation.toU8 : Operation → Nat
  | .PARAM => 1
  | .MOV => 2
  | .SWAP => 3
  | .CMP => 4
  | .ADD => 5
  | .SUB => 6
  | .LOAD => 7
  | .STORE => 8
  | .INC => 9
  | .DEC => 10
  | .INT => 11
  | .JMP => 12
  | .JE => 13
  | .JNE => 14
  | .PUSH => 15
  | .POP => 16

/-- `impl From<u8> for Operation`; the `todo!()` arm (invalid code) is `none`. -/
def Operation.fromU8 : Nat → Option Operation
  | 1 => some .PARAM
  | 2 => some .MOV
  | 3 => some .SWAP
  | 4 => some .CMP
  | 5 => some .ADD
  | 6 => some .SUB
  | 7 => some .LOAD
  | 8 => some .STORE
  | 9 => some .INC
  | 10 => some .DEC
  | 11 => some .INT
  | 12 => some .JMP
  | 13 => some .JE
  | 14 => some .JNE
  | 15 => some .PUSH
  | 16 => some .POP
  | _ => none

/-- `Operation::maybe_from`: the source pattern `1..16` is an exclusive
range, so byte 16 (POP) falls to the `None` arm. -/
def Operation.maybe_from (byte : Nat) : Option Operation :=
  if 1 ≤ byte ∧ byte < 16 then Operation.fromU8 byte else none

/-- `Operation::maybe_into`: `None` is stored as byte 0. -/
def Operation.maybe_into : Option Operation → Nat
  | some o => o.toU8
  | none => 0

/-- Registers AX..DX of `emulator/instruction.rs`. -/
inductive Register where
  | AX | BX | CX | DX
deriving DecidableEq, Repr

/-- `impl From<Register> for u8`: codes 1..4. -/
def Register.toU8 : Register → Nat
  | .AX => 1
  | .BX => 2
  | .CX => 3
  | .DX => 4

/-- `impl From<u8> for Register`; the `todo!()` arm is `none`. -/
def Register.fromU8 : Nat → Option Register
  | 1 => some .AX
  | 2 => some .BX
  | 3 => some .CX
  | 4 => some .DX
  | _ => none

/-- Interrupts of `emulator/instruction.rs` (source spelling kept). -/
inductive Interupt where
  | H09 | H10 | H20
deriving DecidableEq, Repr

/-- `impl From<Interupt> for u8`: codes 1..3. -/
def Interupt.toU8 : Interupt → Nat
  | .H09 => 1
  | .H10 => 2
  | .H20 => 3

/-- `impl From<u8> for Interupt`; the `todo!()` arm is `none`. -/
def Interupt.fromU8 : Nat → Option Interupt
  | 1 => some .H09
  | 2 => some .H10
  | 3 => some .H20
  | _ => none

/-- Operand variants V0..V6 of `emulator/instruction.rs`. -/
inductive Operands where
  | V0
  | V1 (sing num : Nat)
  | V2 (r : Register)
  | V3 (i : Interupt)
  | V4 (p1 p2 p3 : Nat)
  | V5 (r : Register) (num : Nat)
  | V6 (r1 r2 : Register)
deriving DecidableEq, Repr

/-- `impl From<Operands> for Vec<u8>`: tag byte plus three payload bytes. -/
def Operands.toBytes : Operands → List Nat
  | .V0 => [0, 0, 0, 0]
  | .V1 sing num => [1, sing, num, 0]
  | .V2 r => [2, r.toU8, 0, 0]
  | .V3 i => [3, i.toU8, 0, 0]
  | .V4 p1 p2 p3 => [4, p1, p2, p3]
  | .V5 r num => [5, r.toU8, num, 0]
  | .V6 r1 r2 => [6, r1.toU8, r2.toU8, 0]

/-- `impl From<&[u8]> for Operands`: indexes `bytes[0..4]`; a missing index
or an invalid register/interrupt code panics (`none`). -/
def Operands.fromBytes (bytes : List Nat) : Option Operands := do
  let tag ← bytes.get? 0
  match tag with
  | 0 => some .V0
  | 1 => do some (.V1 (← bytes.get? 1) (← bytes.get? 2))
  | 2 => do some (.V2 (← Register.fromU8 (← bytes.get? 1)))
  | 3 => do some (.V3 (← Interupt.fromU8 (← bytes.get? 1)))
  | 4 => do some (.V4 (← bytes.get? 1) (← bytes.get? 2) (← bytes.get? 3))
  | 5 => do some (.V5 (← Register.fromU8 (← bytes.get? 1)) (← bytes.get? 2))
  | 6 => do some (.V6 (← Register.fromU8 (← bytes.get? 1)) (← Register.fromU8 (← bytes.get? 2)))
  | _ => none

/-- An instruction: operation plus operand record. -/
structure Instruction where
  operation : Operation
  operands : Operands
deriving DecidableEq, Repr

/-- `impl From<Instruction> for Vec<u8>`: opcode byte followed by the
4 operand bytes (5 bytes in total). -/
def Instruction.toBytes (i : Instruction) : List Nat :=
  i.operation.toU8 :: i.operands.toBytes

/-- `impl From<&[u8]> for Instruction`: opcode from byte 0, operands from
the rest; any panic inside is `none`. -/
def Instruction.fromBytes (bytes : List Nat) : Option Instruction := do
  let op ← Operation.fromU8 (← bytes.get? 0)
  let os ← Operands.fromBytes (bytes.drop 1)
  some ⟨op, os⟩

/-- `instruction::to_bytes`: each record is prefixed with its length + 1. -/
def to_bytes : List Instruction → List Nat
  | [] => []
  | i :: rest => ((Instruction.toBytes i).length + 1) :: (Instruction.toBytes i ++ to_bytes rest)

/-- Loop body of `instruction::from_bytes`, recursing on a fuel bound so
that the definition stays structural (and kernel-computable). The fuel
never runs out when it starts at the input length, because each step
consumes at least the length byte. -/
def from_bytes_loop : Nat → List Nat → Option (List Instruction)
  | _, [] => some []
  | 0, _ :: _ => none
  | fuel + 1, len :: rest =>
    if 1 ≤ len ∧ len - 1 ≤ rest.length then
      match Instruction.fromBytes (rest.take (len - 1)) with
      | none => none
      | some ins =>
        match from_bytes_loop fuel (rest.drop (len - 1)) with
        | none => none
        | some l => some (ins :: l)
    else none

/-- `instruction::from_bytes`: while input remains, reads a length byte,
slices `bytes[(i+1)..(i+len)]` (which panics when `len = 0` or the slice
end runs past the input), decodes the record and advances by `len`. -/
def from_bytes (bytes : List Nat) : Option (List Instruction) :=
  from_bytes_loop bytes.length bytes

theorem from_bytes_loop_congr :
    ∀ f1 f2 l, l.length ≤ f1 → l.length ≤ f2 →
      from_bytes_loop f1 l = from_bytes_loop f2 l := by
  intro f1
  induction f1 with
  | zero =>
    intro f2 l h1 _
    have : l = [] := List.length_eq_zero.mp (Nat.le_zero.mp h1)
    subst this
    cases f2 <;> rfl
  | succ g1 ih =>
    intro f2 l h1 h2
    cases l with
    | nil => cases f2 <;> rfl
    | cons len rest =>
      cases f2 with
      | zero => simp at h2
      | succ g2 =>
        simp only [from_bytes_loop]
        by_cases hc : 1 ≤ len ∧ len - 1 ≤ rest.length
        · rw [if_pos hc, if_pos hc]
          cases Instruction.fromBytes (rest.take (len - 1)) with
          | none => rfl
          | some ins =>
            have hd : (rest.drop (len - 1)).length ≤ g1 := by
              simp only [List.length_drop]
              simp only [List.length_cons] at h1
              omega
            have hd2 : (rest.drop (len - 1)).length ≤ g2 := by
              simp only [List.length_drop]
              simp only [List.length_cons] at h2
              omega
            rw [ih g2 (rest.drop (len - 1)) hd hd2]
        · rw [if_neg hc, if_neg hc]

theorem operation_fromU8_toU8 (o : Operation) : Operation.fromU8 o.toU8 = some o := by
  cases o <;> rfl

theorem register_fromU8_toU8 (r : Register) : Register.fromU8 r.toU8 = some r := by
  cases r <;> rfl

theorem interupt_fromU8_toU8 (i : Interupt) : Interupt.fromU8 i.toU8 = some i := by
  cases i <;> rfl

theorem operands_fromBytes_toBytes (os : Operands) : Operands.fromBytes os.toBytes = some os := by
  cases os with
  | V0 => rfl
  | V1 a b => rfl
  | V2 r => cases r <;> rfl
  | V3 i => cases i <;> rfl
  | V4 a b c => rfl
  | V5 r n => cases r <;> rfl
  | V6 a b => cases a <;> cases b <;> rfl

theorem instruction_fromBytes_toBytes (i : Instruction) :
    Instruction.fromBytes i.toBytes = some i := by
  simp [Instruction.fromBytes, Instruction.toBytes, operation_fromU8_toU8,
    operands_fromBytes_toBytes]

theorem operands_toBytes_length (os : Operands) : os.toBytes.length = 4 := by
  cases os <;> rfl

theorem instruction_toBytes_length (i : Instruction) : i.toBytes.length = 5 := by
  simp [Instruction.toBytes, operands_toBytes_length]

theorem from_bytes_nil : from_bytes [] = some [] := rfl

theorem from_bytes_append (L : List Instruction) (t : List Nat) :
    from_bytes (to_bytes L ++ t) = (from_bytes t).map (fun r => L ++ r) := by
  induction L with
  | nil =>
    simp only [to_bytes, List.nil_append]
    cases from_bytes t <;> simp
  | cons i L ih =>
    have hstep : to_bytes (i :: L) ++ t =
        ((Instruction.toBytes i).length + 1) ::
          (Instruction.toBytes i ++ (to_bytes L ++ t)) := by
      simp [to_bytes]
    rw [from_bytes, hstep, List.length_cons]
    have hcond : 1 ≤ (Instruction.toBytes i).length + 1 ∧
        (Instruction.toBytes i).length + 1 - 1 ≤
          (Instruction.toBytes i ++ (to_bytes L ++ t)).length := by
      constructor
      · omega
      · simp [Nat.add_sub_cancel, List.length_append]
    simp only [from_bytes_loop]
    rw [if_pos hcond]
    simp only [Nat.add_sub_cancel, List.take_left, List.drop_left,
      instruction_fromBytes_toBytes i]
    rw [from_bytes_loop_congr (Instruction.toBytes i ++ (to_bytes L ++ t)).length
      (to_bytes L ++ t).length (to_bytes L ++ t)
      (by simp [List.length_append]) (le_refl _)]
    rw [← from_bytes, ih]
    cases from_bytes t <;> simp

/-- Process states of `emulator/pcb.rs`; default is `New`. -/
inductive ProcessState where
  | New | Ready | Running | Blocked | Terminated
deriving DecidableEq, Repr

/-- `impl From<ProcessState> for u8`: codes 1..5. -/
def ProcessState.toU8 : ProcessState → Nat
  | .New => 1
  | .Ready => 2
  | .Running => 3
  | .Blocked => 4
  | .Terminated => 5

/-- `impl From<u8> for ProcessState`; the `todo!()` arm is `none`. -/
def ProcessState.fromU8 : Nat → Option ProcessState
  | 1 => some .New
  | 2 => some .Ready
  | 3 => some .Running
  | 4 => some .Blocked
  | 5 => some .Terminated
  | _ => none

/-- The PCB record of `emulator/pcb.rs`. `usize` and `u8` fields are `Nat`
(`cpu.sp` is `usize` in `cpu.rs` while `pcb.sp` is `u8`, and `main.rs`
assigns one to the other, so both are modelled as `Nat`). -/
structure PCB where
  id : Nat
  code_segment : Nat
  code_segment_size : Nat
  stack_segment : Nat
  stack_segment_size : Nat
  pc : Nat
  process_state : ProcessState
  priority : Nat
  ax : Nat
  bx : Nat
  cx : Nat
  dx : Nat
  ac : Nat
  sp : Nat
  ir : Option Operation
  z : Bool
deriving DecidableEq, Repr

/-- `PCB::new(id)`: everything defaulted except the id. -/
def PCB.new (id : Nat) : PCB :=
  ⟨id, 0, 0, 0, 0, 0, .New, 0, 0, 0, 0, 0, 0, 0, none, false⟩

/-- `PCB::code_segment(address, size)` builder: also sets `pc = address`. -/
def PCB.set_code_segment (p : PCB) (address size : Nat) : PCB :=
  { p with code_segment := address, code_segment_size := size, pc := address }

/-- `PCB::stack_segment(address, size)` builder. -/
def PCB.set_stack_segment (p : PCB) (address size : Nat) : PCB :=
  { p with stack_segment := address, stack_segment_size := size }

/-- `usize::to_ne_bytes` on the little-endian host: 8 bytes, least
significant first. -/
def neBytes (n : Nat) : List Nat :=
  [n % 256, n / 256 % 256, n / 256 ^ 2 % 256, n / 256 ^ 3 % 256,
   n / 256 ^ 4 % 256, n / 256 ^ 5 % 256, n / 256 ^ 6 % 256, n / 256 ^ 7 % 256]

/-- `retain(|&x| x != 0)` applied to the native bytes: every zero byte is
removed, not only the leading (most significant) ones. -/
def shrinkBytes (n : Nat) : List Nat :=
  (neBytes n).filter (fun b => b ≠ 0)

/-- One length-prefixed compact field: `[shrunk.len + 1, shrunk...]`. -/
def serializeField (n : Nat) : List Nat :=
  ((shrinkBytes n).length + 1) :: shrinkBytes n

/-- `impl From<PCB> for Vec<u8>`: six compact fields (with the `[2, 0]`
sentinel for `pc = 0`) followed by the ten fixed single-byte fields. -/
def pcbSerialize (p : PCB) : List Nat :=
  serializeField p.id ++
  serializeField p.code_segment ++
  serializeField p.code_segment_size ++
  serializeField p.stack_segment ++
  serializeField p.stack_segment_size ++
  (if p.pc = 0 then [2, 0] else serializeField p.pc) ++
  [p.process_state.toU8, p.priority, p.ax, p.bx, p.cx, p.dx, p.ac, p.sp,
   Operation.maybe_into p.ir, if p.z then 1 else 0]

/-- `&l[a..b]` on a byte slice: `none` on an inverted or out-of-range
slice (a Rust panic). -/
def sliceGet (l : List Nat) (a b : Nat) : Option (List Nat) :=
  if a ≤ b ∧ b ≤ l.length then some ((l.take b).drop a) else none

/-- `Vec::resize(8, 0)` then `usize::from_ne_bytes` (little-endian):
value of at most the first 8 bytes, least significant first. -/
def leVal : List Nat → Nat
  | [] => 0
  | b :: rest => b + 256 * leVal rest

def fromShrunk (l : List Nat) : Nat := leVal (l.take 8)

/-- One compact field read of `impl From<&[u8]> for PCB`: with the index
accumulator at `len`, slice `bytes[(len + 1)..(len + bytes[len])]`, expand
it back to a machine word, and advance the accumulator by `bytes[len]`.
(The id field is this very pattern at `len = 0`.) -/
def pcbReadField (bytes : List Nat) (len : Nat) : Option (Nat × Nat) :=
  match bytes.get? len with
  | none => none
  | some l =>
    match sliceGet bytes (len + 1) (len + l) with
    | none => none
    | some field => some (fromShrunk field, len + l)

/-- The ten fixed single-byte fields at the tail, read at offsets
`len..len + 9`; `none` models an out-of-bounds index. -/
def pcbReadFixed (bytes : List Nat) (len : Nat)
    (id code_segment code_segment_size stack_segment stack_segment_size pc : Nat) :
    Option PCB :=
  match sliceGet bytes len (len + 10) with
  | none => none
  | some fixed =>
    match fixed with
    | [st, priority, ax, bx, cx, dx, ac, sp, irb, zb] =>
      match ProcessState.fromU8 st with
      | none => none
      | some process_state =>
        some ⟨id, code_segment, code_segment_size, stack_segment, stack_segment_size,
              pc, process_state, priority, ax, bx, cx, dx, ac, sp,
              Operation.maybe_from irb, zb ≠ 0⟩
    | _ => none

/-- `impl From<&[u8]> for PCB`: walks the six compact fields with the
running index accumulator, then reads the ten fixed bytes. Any failing
slice or index is `none`. -/
def pcbDeserialize (bytes : List Nat) : Option PCB :=
  match pcbReadField bytes 0 with
  | none => none
  | some (id, len1) =>
    match pcbReadField bytes len1 with
    | none => none
    | some (code_segment, len2) =>
      match pcbReadField bytes len2 with
      | none => none
      | some (code_segment_size, len3) =>
        match pcbReadField bytes len3 with
        | none => none
        | some (stack_segment, len4) =>
          match pcbReadField bytes len4 with
          | none => none
          | some (stack_segment_size, len5) =>
            match pcbReadField bytes len5 with
            | none => none
            | some (pc, len6) =>
              pcbReadFixed bytes len6 id code_segment code_segment_size
                stack_segment stack_segment_size pc

/-- Claim C1: the spec asserts `deserialize(serialize(p)) = p` for every
PCB, but the serializer removes every zero byte of a machine word, not
only the leading ones: the PCB with `id = 256` (native bytes `[0, 1, ...]`)
serializes to the compact field `[2, 1]` and deserializes back with
`id = 1`. Every other field survives, so the result is exactly `PCB.new 1`. -/
theorem C1_pcb_roundtrip_fails_at_id256 :
    pcbDeserialize (pcbSerialize (PCB.new 256)) = some (PCB.new 1) ∧
    PCB.new 1 ≠ PCB.new 256 ∧ (pcbSerialize (PCB.new 256)).length ≤ 40 := by
  refine ⟨by decide, by decide, by decide⟩

/-- Claim C2: decoding the encoded program stream restores every
instruction list: `from_bytes (to_bytes L) = some L`. -/
theorem C2_program_codec_roundtrip (L : List Instruction) :
    from_bytes (to_bytes L) = some L := by
  have h := from_bytes_append L []
  rw [List.append_nil, from_bytes_nil] at h
  simpa using h

/-- Claim C3 counterexample: the encoded form of `MOV AX, 5` is the
6-byte block `[6, 2, 5, 1, 5, 0]` — the length byte is 6 and the whole
encoded instruction is 6 bytes, not 7 as the claim states. -/
theorem C3_length_byte_not_seven :
    to_bytes [⟨.MOV, .V5 .AX 5⟩] = [6, 2, 5, 1, 5, 0] ∧
    (to_bytes [⟨.MOV, .V5 .AX 5⟩]).length ≠ 7 ∧
    (to_bytes [⟨.MOV, .V5 .AX 5⟩]).head? ≠ some 7 := by
  refine ⟨by decide, by decide, by decide⟩

/-- Claim C3 (amended): for every instruction, `to_bytes` emits a length
byte whose value is 6 followed by the 5-byte instruction record
`[op, tag, b1, b2, b3]`, so each encoded instruction occupies exactly
6 bytes of the program stream. -/
theorem C3_encoded_instruction_is_six_bytes (i : Instruction) (L : List Instruction) :
    to_bytes (i :: L) = 6 :: (i.toBytes ++ to_bytes L) ∧ i.toBytes.length = 5 := by
  constructor
  · simp [to_bytes, instruction_toBytes_length]
  · exact instruction_toBytes_length i

/-- Claim C4 counterexample: one trailing zero byte after an encoded
instruction makes `from_bytes` slice `bytes[(i+1)..i]`, a panicking
inverted range, instead of stopping gracefully. -/
theorem C4_trailing_zero_panics :
    to_bytes [⟨.MOV, .V5 .AX 5⟩] ++ [0] = [6, 2, 5, 1, 5, 0, 0] ∧
    from_bytes [6, 2, 5, 1, 5, 0, 0] = none := by
  refine ⟨by decide, by decide⟩

/-- Claim C4 (amended): `from_bytes` returns normally exactly when the
stream carries no trailing padding: on the bare encoded instructions it
returns the list, while any positive number of trailing zero bytes makes
it hit a length byte of 0 and fail on the inverted slice
`bytes[(i+1)..i]` (modelled `none`) rather than stopping. -/
theorem C4_decode_padding_behavior (L : List Instruction) (n : Nat) :
    from_bytes (to_bytes L ++ List.replicate n 0) =
      if n = 0 then some L else none := by
  rcases n with _ | m
  · simpa using C2_program_codec_roundtrip L
  · rw [from_bytes_append]
    have hz : from_bytes (List.replicate (m + 1) 0) = none := by
      rw [from_bytes]
      simp only [List.length_replicate, List.replicate_succ, from_bytes_loop]
      rw [if_neg]
      omega
    rw [hz]
    simp

/-- The CPU register file of `emulator/cpu.rs`. The wall-clock fields
`start_time` and `total_time` carry no register data and are omitted. -/
structure CPU where
  ax : Nat
  bx : Nat
  cx : Nat
  dx : Nat
  ac : Nat
  pc : Nat
  sp : Nat
  ir : Option Operation
  z : Bool
deriving DecidableEq, Repr

/-- `CPU::new()`: all registers defaulted. -/
def CPU.new : CPU := ⟨0, 0, 0, 0, 0, 0, 0, none, false⟩

/-- Read one of AX..DX (the uniform four-way matches of `main.rs`). -/
def readReg (cpu : CPU) : Register → Nat
  | .AX => cpu.ax
  | .BX => cpu.bx
  | .CX => cpu.cx
  | .DX => cpu.dx

/-- Write one of AX..DX (the uniform four-way matches of `main.rs`). -/
def writeReg (cpu : CPU) : Register → Nat → CPU
  | .AX, v => { cpu with ax := v }
  | .BX, v => { cpu with bx := v }
  | .CX, v => { cpu with cx := v }
  | .DX, v => { cpu with dx := v }

/-- Checked `u8` addition: overflow panics in a debug build (`none`). -/
def addU8 (a b : Nat) : Option Nat :=
  if a + b ≤ 255 then some (a + b) else none

/-- Checked unsigned subtraction (`u8` or `usize`): underflow panics. -/
def subChecked (a b : Nat) : Option Nat :=
  if b ≤ a then some (a - b) else none

/-- Checked `u8` multiplication: overflow panics. -/
def mulU8 (a b : Nat) : Option Nat :=
  if a * b ≤ 255 then some (a * b) else none

/-- `mem[i] = v`: out-of-bounds index panics. -/
def setByte (l : List Nat) (i v : Nat) : Option (List Nat) :=
  if i < l.length then some (l.set i v) else none

/-- `MOV r1, r2` nested match of `main.rs`: the same-register diagonal
falls into the `_ => {}` arms and is a no-op. -/
def movRegReg (cpu : CPU) : Register → Register → CPU
  | .AX, .BX => { cpu with ax := cpu.bx }
  | .AX, .CX => { cpu with ax := cpu.cx }
  | .AX, .DX => { cpu with ax := cpu.dx }
  | .BX, .AX => { cpu with bx := cpu.ax }
  | .BX, .CX => { cpu with bx := cpu.cx }
  | .BX, .DX => { cpu with bx := cpu.dx }
  | .CX, .AX => { cpu with cx := cpu.ax }
  | .CX, .BX => { cpu with cx := cpu.bx }
  | .CX, .DX => { cpu with cx := cpu.dx }
  | .DX, .AX => { cpu with dx := cpu.ax }
  | .DX, .BX => { cpu with dx := cpu.bx }
  | .DX, .CX => { cpu with dx := cpu.cx }
  | _, _ => cpu

/-- `SWAP r1, r2` nested match of `main.rs`; the diagonal is a no-op. -/
def swapRegs (cpu : CPU) : Register → Register → CPU
  | .AX, .BX => { cpu with ax := cpu.bx, bx := cpu.ax }
  | .AX, .CX => { cpu with ax := cpu.cx, cx := cpu.ax }
  | .AX, .DX => { cpu with ax := cpu.dx, dx := cpu.ax }
  | .BX, .AX => { cpu with bx := cpu.ax, ax := cpu.bx }
  | .BX, .CX => { cpu with bx := cpu.cx, cx := cpu.bx }
  | .BX, .DX => { cpu with bx := cpu.dx, dx := cpu.bx }
  | .CX, .AX => { cpu with cx := cpu.ax, ax := cpu.cx }
  | .CX, .BX => { cpu with cx := cpu.bx, bx := cpu.cx }
  | .CX, .DX => { cpu with cx := cpu.dx, dx := cpu.cx }
  | .DX, .AX => { cpu with dx := cpu.ax, ax := cpu.dx }
  | .DX, .BX => { cpu with dx := cpu.bx, bx := cpu.dx }
  | .DX, .CX => { cpu with dx := cpu.cx, cx := cpu.dx }
  | _, _ => cpu

/-- `CMP r1, r2` nested match of `main.rs`: sets `Z` for distinct register
pairs; on the same-register diagonal the `_ => {}` arms leave `Z` alone. -/
def cmpRegs (cpu : CPU) : Register → Register → CPU
  | .AX, .BX => { cpu with z := cpu.ax = cpu.bx }
  | .AX, .CX => { cpu with z := cpu.ax = cpu.cx }
  | .AX, .DX => { cpu with z := cpu.ax = cpu.dx }
  | .BX, .AX => { cpu with z := cpu.bx = cpu.ax }
  | .BX, .CX => { cpu with z := cpu.bx = cpu.cx }
  | .BX, .DX => { cpu with z := cpu.bx = cpu.dx }
  | .CX, .AX => { cpu with z := cpu.cx = cpu.ax }
  | .CX, .BX => { cpu with z := cpu.cx = cpu.bx }
  | .CX, .DX => { cpu with z := cpu.cx = cpu.dx }
  | .DX, .AX => { cpu with z := cpu.dx = cpu.ax }
  | .DX, .BX => { cpu with z := cpu.dx = cpu.bx }
  | .DX, .CX => { cpu with z := cpu.dx = cpu.cx }
  | _, _ => cpu

/-- `JMP` / taken `JE` / taken `JNE` arm: `(7 * num) as usize` is a `u8`
multiplication (overflow panics), and the `usize` subtraction of the
backward jump panics on underflow. A sign byte other than 0 or 1 falls
into the `_ => {}` arm. -/
def jumpPC (cpu : CPU) (s num : Nat) : Option CPU :=
  match s with
  | 0 =>
    match mulU8 7 num with
    | none => none
    | some off => some { cpu with pc := cpu.pc + off }
  | 1 =>
    match mulU8 7 num with
    | none => none
    | some off =>
      match subChecked cpu.pc off with
      | none => none
      | some p => some { cpu with pc := p }
  | _ => some cpu

/-- One `PARAM` push: non-zero immediates go to `mem[sp]` with `sp += 1`. -/
def paramPush (mem : List Nat) (sp p : Nat) : Option (List Nat × Nat) :=
  if p ≠ 0 then
    match setByte mem sp p with
    | none => none
    | some m => some (m, sp + 1)
  else some (mem, sp)

/-- Outcome of executing one instruction inside `Message::Tick`:
`ok` falls through to the unconditional `pc += 6` advance, while
`terminated` / `blocked` model the early `return Task::done(...)`. -/
inductive TickResult where
  | ok (cpu : CPU) (mem : List Nat) (display : String)
  | terminated (cpu : CPU) (mem : List Nat) (display : String)
  | blocked (cpu : CPU) (mem : List Nat) (display : String)
deriving DecidableEq, Repr

/-- The execute stage of `Message::Tick` in `main.rs`, one arm per opcode;
operand variants that do not match the expected pattern fall through the
`if let` and leave the state unchanged. -/
def execInstr (cpu : CPU) (mem : List Nat) (display : String) :
    Operation → Operands → Option TickResult
  | .LOAD, .V2 r => some (.ok { cpu with ac := readReg cpu r } mem display)
  | .STORE, .V2 r => some (.ok (writeReg cpu r cpu.ac) mem display)
  | .MOV, .V5 r num => some (.ok (writeReg cpu r num) mem display)
  | .MOV, .V6 r1 r2 => some (.ok (movRegReg cpu r1 r2) mem display)
  | .ADD, .V2 r =>
    match addU8 cpu.ac (readReg cpu r) with
    | none => none
    | some v => some (.ok { cpu with ac := v } mem display)
  | .SUB, .V2 r =>
    match subChecked cpu.ac (readReg cpu r) with
    | none => none
    | some v => some (.ok { cpu with ac := v } mem display)
  | .INC, .V0 =>
    match addU8 cpu.ac 1 with
    | none => none
    | some v => some (.ok { cpu with ac := v } mem display)
  | .INC, .V2 r =>
    match addU8 cpu.ac (readReg cpu r) with
    | none => none
    | some v => some (.ok { cpu with ac := v } mem display)
  | .DEC, .V0 =>
    match subChecked cpu.ac 1 with
    | none => none
    | some v => some (.ok { cpu with ac := v } mem display)
  | .DEC, .V2 r =>
    match subChecked cpu.ac (readReg cpu r) with
    | none => none
    | some v => some (.ok { cpu with ac := v } mem display)
  | .SWAP, .V6 r1 r2 => some (.ok (swapRegs cpu r1 r2) mem display)
  | .INT, .V3 .H20 => some (.terminated cpu mem display)
  | .INT, .V3 .H10 => some (.ok cpu mem (toString cpu.dx))
  | .INT, .V3 .H09 => some (.blocked cpu mem display)
  | .JMP, .V1 s num =>
    match jumpPC cpu s num with
    | none => none
    | some c => some (.ok c mem display)
  | .JE, .V1 s num =>
    if cpu.z then
      match jumpPC cpu s num with
      | none => none
      | some c => some (.ok c mem display)
    else some (.ok cpu mem display)
  | .JNE, .V1 s num =>
    if cpu.z then some (.ok cpu mem display)
    else
      match jumpPC cpu s num with
      | none => none
      | some c => some (.ok c mem display)
  | .PUSH, .V2 r =>
    match setByte mem cpu.sp (readReg cpu r) with
    | none => none
    | some m => some (.ok { cpu with sp := cpu.sp + 1 } m display)
  | .POP, .V2 r =>
    match mem.get? cpu.sp with
    | none => none
    | some v =>
      match subChecked cpu.sp 1 with
      | none => none
      | some sp1 => some (.ok { writeReg cpu r v with sp := sp1 } mem display)
  | .PARAM, .V4 p1 p2 p3 =>
    match paramPush mem cpu.sp p1 with
    | none => none
    | some (m1, sp1) =>
      match paramPush m1 sp1 p2 with
      | none => none
      | some (m2, sp2) =>
        match paramPush m2 sp2 p3 with
        | none => none
        | some (m3, sp3) => some (.ok { cpu with sp := sp3 } m3 display)
  | .CMP, .V6 r1 r2 => some (.ok (cmpRegs cpu r1 r2) mem display)
  | _, _ => some (.ok cpu mem display)

/-- One CPU step of `Message::Tick`: fetch the 5-byte window
`mem[pc+1 .. pc+6]`, terminate on an opcode byte of 0, otherwise set IR,
execute, and (unless the instruction returned early) advance `pc += 6` —
the advance is applied to every fall-through arm, jumps included. -/
def tick (cpu : CPU) (mem : List Nat) (display : String) : Option TickResult :=
  match sliceGet mem (cpu.pc + 1) (cpu.pc + 6) with
  | none => none
  | some bytes =>
    match bytes.get? 0 with
    | none => none
    | some b0 =>
      if b0 = 0 then some (.terminated cpu mem display)
      else
        match Instruction.fromBytes bytes with
        | none => none
        | some ins =>
          match execInstr { cpu with ir := some ins.operation } mem display
              ins.operation ins.operands with
          | none => none
          | some (.ok c m d) => some (.ok { c with pc := c.pc + 6 } m d)
          | some r => some r

/-- Claim C5: the claim says `JMP n, +` sets `PC` to `pc + 7·n` with no
further advance, but the `pc += 6` at the end of the tick arm is
unconditional: on a CPU at `pc = 0` executing `JMP 1, +` the program
counter ends at `0 + 7·1 + 6 = 13`, not at `0 + 7·1 = 7`. -/
theorem C5_jump_gets_extra_advance :
    tick CPU.new [6, 12, 1, 0, 1, 0] "" =
      some (.ok ⟨0, 0, 0, 0, 0, 13, 0, some .JMP, false⟩ [6, 12, 1, 0, 1, 0] "") ∧
    (13 : Nat) ≠ 0 + 7 * 1 := by
  refine ⟨by decide, by decide⟩

/-- `data[a..b].copy_from_slice(&v)`: the total rewrite of the span. -/
def listWrite (l : List Nat) (a : Nat) (v : List Nat) : List Nat :=
  l.take a ++ v ++ l.drop (a + v.length)

/-- `data[a..b].copy_from_slice(&v)` with the panicking checks: the slice
must be in range and `v` must have exactly the slice's length. -/
def writeSlice (l : List Nat) (a b : Nat) (v : List Nat) : Option (List Nat) :=
  if a ≤ b ∧ b ≤ l.length ∧ v.length = b - a then some (listWrite l a v) else none

/-- The `Message::Distpacher((cpu_index, (pcb_id, address, size)))` handler
of `main.rs` for one CPU slot `(cpu, proc)`. If the CPU holds a process,
its PCB is read back and updated — with the source's transposed
`cpu.bx = pcb.bx` assignment, so the PCB keeps its stale `bx` while the
CPU's `bx` is clobbered — marked Ready and re-serialized in place. Then
the incoming PCB is loaded into the CPU, marked Running and re-serialized.
Returns the new memory bytes, CPU and bound process id. -/
def dispatcher (mem : List Nat) (cpu : CPU) (proc : Option Nat)
    (pcb_table : List (Nat × Nat × Nat)) (pcb_id address size : Nat) :
    Option (List Nat × CPU × Option Nat) :=
  let saved : Option (List Nat × CPU) :=
    match proc with
    | none => some (mem, cpu)
    | some p_id =>
      match pcb_table.find? (fun x => x.1 == p_id) with
      | none => some (mem, cpu)
      | some (_, oldA, oldS) =>
        match sliceGet mem oldA (oldA + oldS) with
        | none => none
        | some bs =>
          match pcbDeserialize bs with
          | none => none
          | some pcb =>
            let cpu1 := { cpu with bx := pcb.bx }
            let pcb1 := { pcb with
              ax := cpu.ax, cx := cpu.cx, dx := cpu.dx, ac := cpu.ac,
              pc := cpu.pc, sp := cpu.sp, ir := cpu.ir, z := cpu.z,
              process_state := .Ready }
            let bytes := pcbSerialize pcb1
            match writeSlice mem oldA (oldA + bytes.length) bytes with
            | none => none
            | some mem1 => some (mem1, cpu1)
  match saved with
  | none => none
  | some (mem1, cpu1) =>
    match sliceGet mem1 address (address + size) with
    | none => none
    | some bs =>
      match pcbDeserialize bs with
      | none => none
      | some pcb =>
        let cpu2 := { cpu1 with
          ax := pcb.ax, bx := pcb.bx, cx := pcb.cx, dx := pcb.dx,
          ac := pcb.ac, pc := pcb.pc, sp := pcb.sp, ir := pcb.ir, z := pcb.z }
        let pcb2 := { pcb with process_state := .Running }
        let bytes := pcbSerialize pcb2
        match writeSlice mem1 address (address + bytes.length) bytes with
        | none => none
        | some mem2 => some (mem2, cpu2, some pcb_id)

/-- Concrete context-switch scenario for claim C6: the outgoing process
(id 1, Running, `bx = 7`) lives at bytes 0..22, the incoming process
(id 2, Ready) at bytes 22..44; the CPU holds `bx = 9`. The value is the
outgoing PCB re-read from memory after the dispatch. -/
def c6OldPcb : PCB :=
  ⟨1, 130, 6, 136, 5, 131, .Running, 0, 1, 7, 2, 3, 4, 136, some .MOV, false⟩

def c6NewPcb : PCB :=
  ⟨2, 140, 6, 146, 5, 140, .Ready, 0, 0, 0, 0, 0, 0, 146, none, false⟩

def c6Cpu : CPU := ⟨10, 9, 11, 12, 13, 137, 137, some .ADD, true⟩

def c6Reread : Option PCB :=
  match dispatcher (pcbSerialize c6OldPcb ++ pcbSerialize c6NewPcb) c6Cpu (some 1)
      [(1, 0, 22), (2, 22, 22)] 2 22 22 with
  | none => none
  | some (mem1, _, _) =>
    match sliceGet mem1 0 22 with
    | none => none
    | some bs => pcbDeserialize bs

/-- Claim C6: the claim says the outgoing PCB, re-read after the switch,
holds exactly the CPU's pre-switch registers. The source's transposed
assignment `cpu.bx = pcb.bx` means the re-read PCB keeps its stale
`bx = 7` although the CPU held `bx = 9`; every other register and the
Ready state do come from the CPU. -/
theorem C6_context_switch_drops_bx :
    c6Reread =
      some ⟨1, 130, 6, 136, 5, 137, .Ready, 0, 10, 7, 11, 12, 13, 137, some .ADD, true⟩ ∧
    c6Cpu.bx = 9 ∧ (7 : Nat) ≠ 9 := by
  refine ⟨by decide, by decide, by decide⟩

/-- The typed errors of `error.rs` used by the embedded components. -/
inductive Error where
  | ParseIntError
  | NotEnoughStorage (name : String)
  | NotEnoughUserMemory
  | NotEnoughOsMemory
  | InvalidOperation (row : Nat) (s : String)
  | ParseOperationError (s : String)
  | ParseRegisterError (s : String)
  | ParseInteruptError (s : String)
  | InvalidNumberOperands (row : Nat) (op : Operation) (args : List String)
  | InvalidOperand (row : Nat) (op : Operation) (arg : String)
  | Utf8Error
deriving DecidableEq, Repr

instance {ε α : Type} [DecidableEq ε] [DecidableEq α] : DecidableEq (Except ε α) := fun x y =>
  match x, y with
  | .ok a, .ok b =>
    if h : a = b then isTrue (by rw [h]) else isFalse (by intro he; cases he; exact h rfl)
  | .ok _, .error _ => isFalse (by intro h; cases h)
  | .error _, .ok _ => isFalse (by intro h; cases h)
  | .error e, .error f =>
    if h : e = f then isTrue (by rw [h]) else isFalse (by intro he; cases he; exact h rfl)

/-- The disk model of `emulator/storage.rs`. -/
structure Storage where
  data : List Nat
  used : List (String × Nat × Nat)
  freed : List (String × Nat × Nat)
deriving DecidableEq, Repr

/-- `Storage::new(size)`. -/
def Storage.new (size : Nat) : Storage :=
  ⟨List.replicate size 0, [], []⟩

/-- First freed region whose recorded size equals `size`, with its index
(the enumerated scan of `store_files`). -/
def findFreedSameSize (freed : List (String × Nat × Nat)) (size : Nat) :
    Option (Nat × String × Nat × Nat) :=
  (freed.enum.find? (fun e => e.2.2.2 == size)).map (fun e => (e.1, e.2))

/-- `Storage::store_files(file_name, size, data)`. The three branches are
an `if / else if / else` chain, so when `freed` and `used` are both
non-empty and no freed region has exactly the requested size, the `for`
loop finds nothing, control falls past the chain and `Ok(())` is returned
without storing anything. -/
def Storage.store_files (st : Storage) (file_name : String) (size : Nat)
    (data : List Nat) : Option (Except Error Storage) :=
  if st.freed ≠ [] ∧ st.used ≠ [] then
    match findFreedSameSize st.freed size with
    | some (i, _, address, data_size) =>
      match writeSlice st.data address (address + data_size) data with
      | none => none
      | some d =>
        some (.ok { st with
          data := d
          used := st.used ++ [(file_name, address, data_size)]
          freed := st.freed.eraseIdx i })
    | none => some (.ok st)
  else if st.used = [] then
    if st.data.length > size then
      match writeSlice st.data 0 size data with
      | none => none
      | some d => some (.ok { st with data := d, used := st.used ++ [(file_name, 0, size)] })
    else some (.error (.NotEnoughStorage file_name))
  else
    match st.used.getLast? with
    | none => none
    | some (_, address, data_size) =>
      let next_address := address + data_size
      match subChecked st.data.length next_address with
      | none => none
      | some available_space =>
        if available_space > size then
          match writeSlice st.data next_address (next_address + size) data with
          | none => none
          | some d =>
            some (.ok { st with
              data := d
              used := st.used ++ [(file_name, next_address, size)] })
        else some (.error (.NotEnoughStorage file_name))

/-- Concrete storage state for claim C7: one used record, one freed record
of size 2, and a request of size 3 that matches no freed region. -/
def c7Storage : Storage :=
  ⟨List.replicate 16 0, [("a", 0, 4)], [("b", 4, 2)]⟩

/-- Claim C7: the claim says `store_files` either stores the file or
returns `NotEnoughStorage`. On a state with non-empty `used` and `freed`
lists and no freed region of the exact size, it returns `Ok` with the
storage completely unchanged: no bytes written, no `used` record appended,
and no error reported. -/
theorem C7_store_files_silent_success :
    c7Storage.store_files "c" 3 [1, 2, 3] = some (.ok c7Storage) ∧
    c7Storage.used.all (fun e => e.1 ≠ "c") := by
  refine ⟨by decide, by decide⟩

/-- The main memory of `emulator/memory.rs`. -/
structure Memory where
  data : List Nat
  os_segment_size : Nat
  used : List (Nat × Nat)
  freed : List (Nat × Nat)
  pcb_table : List (Nat × Nat × Nat)
deriving DecidableEq, Repr

/-- `Memory::new(size, os_segment)`. -/
def Memory.new (size os_segment : Nat) : Memory :=
  ⟨List.replicate size 0, os_segment, [], [], []⟩

/-- First freed user region of exactly `size` bytes, with its index. -/
def findFreedSameSizeMem (freed : List (Nat × Nat)) (size : Nat) :
    Option (Nat × Nat × Nat) :=
  (freed.enum.find? (fun e => e.2.2 == size)).map (fun e => (e.1, e.2))

/-- `Memory::store(data, size)`: same-size freed reuse first (this first
branch returns on a hit and otherwise falls through — it is a plain `if`,
not an `else if`), then first allocation at the end of the OS segment,
then append after the last used region. -/
def Memory.store (m : Memory) (data : List Nat) (size : Nat) :
    Option (Except Error ((Nat × Nat) × Memory)) :=
  let reused : Option (Option (Except Error ((Nat × Nat) × Memory))) :=
    if m.freed ≠ [] ∧ m.used ≠ [] then
      match findFreedSameSizeMem m.freed size with
      | some (i, address, m_size) =>
        some (match writeSlice m.data address (address + size) data with
          | none => none
          | some d =>
            some (.ok ((address, m_size), { m with
              data := d
              used := m.used ++ [(address, m_size)]
              freed := m.freed.eraseIdx i })))
      | none => none
    else none
  match reused with
  | some r => r
  | none =>
    if m.used = [] then
      match subChecked m.data.length m.os_segment_size with
      | none => none
      | some room =>
        if room > size then
          match writeSlice m.data m.os_segment_size (m.os_segment_size + size) data with
          | none => none
          | some d =>
            some (.ok ((m.os_segment_size, size),
              { m with data := d, used := m.used ++ [(m.os_segment_size, size)] }))
        else some (.error .NotEnoughUserMemory)
    else
      match m.used.getLast? with
      | none => none
      | some (address, data_size) =>
        let next_address := address + data_size
        match subChecked m.data.length next_address with
        | none => none
        | some available_space =>
          if available_space > size then
            match writeSlice m.data next_address (next_address + size) data with
            | none => none
            | some d =>
              some (.ok ((next_address, size),
                { m with data := d, used := m.used ++ [(next_address, size)] }))
          else some (.error .NotEnoughUserMemory)

/-- `Memory::store_pcb(pcb)`: serialize and append into the OS segment. -/
def Memory.store_pcb (m : Memory) (pcb : PCB) : Option (Except Error Memory) :=
  let bytes := pcbSerialize pcb
  if m.pcb_table = [] then
    if m.os_segment_size > bytes.length then
      match writeSlice m.data 0 bytes.length bytes with
      | none => none
      | some d =>
        some (.ok { m with data := d, pcb_table := m.pcb_table ++ [(pcb.id, 0, bytes.length)] })
    else some (.error .NotEnoughOsMemory)
  else
    match m.pcb_table.getLast? with
    | none => none
    | some (_, address, data_size) =>
      let next_address := address + data_size
      match subChecked m.os_segment_size next_address with
      | none => none
      | some available_space =>
        if available_space > bytes.length then
          match writeSlice m.data next_address (next_address + bytes.length) bytes with
          | none => none
          | some d =>
            some (.ok { m with
              data := d
              pcb_table := m.pcb_table ++ [(pcb.id, next_address, bytes.length)] })
        else some (.error .NotEnoughOsMemory)

/-- `Memory::last_pcb_id()`. -/
def Memory.last_pcb_id (m : Memory) : Nat :=
  match m.pcb_table.getLast? with
  | some (id, _, _) => id
  | none => 0

/-- The first instruction of the claim C9 scenario: a source file holding
just `PUSH AX` (which the parser accepts into `V2 AX`). -/
def c9Program : List Instruction := [⟨.PUSH, .V2 .AX⟩]

/-- Claim C9 scenario, following `create_pcbs` and the dispatcher exactly:
memory of 140 bytes with a 120-byte OS segment; the encoded program is
stored in the user segment, a 5-byte stack segment is allocated, a PCB is
built with `PCB::new` + the two segment builders (which never touch `sp`)
and stored in the OS segment; the process is dispatched and one Tick runs
the `PUSH`. The result records the CPU stack pointer used for the write,
and the byte at that address before and after the Tick. -/
def c9chain : Option (Nat × Nat × Nat) :=
  match (Memory.new 140 120).store (to_bytes c9Program) (to_bytes c9Program).length with
  | some (.ok ((a1, s1), m1)) =>
    match m1.store (List.replicate 5 0) 5 with
    | some (.ok ((a2, s2), m2)) =>
      match m2.store_pcb
          (((PCB.new (m2.last_pcb_id + 1)).set_code_segment a1 s1).set_stack_segment a2 s2) with
      | some (.ok m3) =>
        match m3.pcb_table.head? with
        | some (pid, addr, size) =>
          match dispatcher m3.data CPU.new none m3.pcb_table pid addr size with
          | some (mem4, cpu4, _) =>
            match mem4.get? cpu4.sp with
            | some before =>
              match tick cpu4 mem4 "" with
              | some (.ok _ mem5 _) =>
                match mem5.get? cpu4.sp with
                | some after => some (cpu4.sp, before, after)
                | none => none
              | _ => none
            | none => none
          | none => none
        | none => none
      | _ => none
    | _ => none
  | _ => none


set_option maxRecDepth 100000

/-- Claim C9: the claim says every PUSH write through SP lands inside the
executing process's stack segment (here bytes 126..131) and the OS segment
holds only serialized PCBs. But `create_pcbs` never initializes the PCB's
`sp` (the builders leave it at the `PCB::new` default 0), the dispatcher
copies that 0 into the CPU, and the first `PUSH AX` therefore writes at
address 0 — inside the OS segment `[0, 120)` — clobbering the first length
byte of the stored PCB (2 becomes 0). -/
theorem C9_push_writes_into_os_segment :
    c9chain = some (0, 2, 0) ∧
    (((PCB.new 1).set_code_segment 120 6).set_stack_segment 126 5).sp = 0 ∧
    (0 : Nat) < 120 ∧ ¬ (126 ≤ 0 ∧ 0 < 126 + 5) := by
  refine ⟨by decide, by decide, by decide, by decide⟩

/-- The `REGISTERS` constant of `parser.rs`. -/
def REGISTERS : List String := ["AX", "BX", "CX", "DX"]

/-- The `INTERUPTS` constant of `parser.rs`. -/
def INTERUPTS : List String := ["09H", "10H", "20H"]

/-- `s.replace("-", "")`: removes every dash. -/
def removeDash (s : String) : String :=
  String.mk (s.data.filter (fun c => c ≠ '-'))

/-- `s.replace("+", "")`: removes every plus sign. -/
def removePlus (s : String) : String :=
  String.mk (s.data.filter (fun c => c ≠ '+'))

/-- `str::parse::<u8>()`: an optional leading plus sign, then at least one
ASCII digit, and the value must fit in 8 bits (overflow is an error). -/
def parseU8 (s : String) : Option Nat :=
  let cs := match s.data with
    | '+' :: rest => rest
    | l => l
  if cs ≠ [] ∧ cs.all Char.isDigit then
    let v := cs.foldl (fun a c => a * 10 + (c.toNat - 48)) 0
    if v ≤ 255 then some v else none
  else none

/-- `impl FromStr for Register`. -/
def Register.from_str (s : String) : Except Error Register :=
  if s = "AX" then .ok .AX
  else if s = "BX" then .ok .BX
  else if s = "CX" then .ok .CX
  else if s = "DX" then .ok .DX
  else .error (.ParseRegisterError s)

/-- `impl FromStr for Interupt`. -/
def Interupt.from_str (s : String) : Except Error Interupt :=
  if s = "09H" then .ok .H09
  else if s = "10H" then .ok .H10
  else if s = "20H" then .ok .H20
  else .error (.ParseInteruptError s)

/-- The PARAM arm of `validate_operators` in `parser.rs`: after the count
check (1..=3 operands) and the register scan, the code indexes
`operators[0]`, `operators[1]` and `operators[2]` unconditionally — with
fewer than 3 operands the missing index panics (`none`). -/
def paramArm (row : Nat) (operation : Operation) (operators : List String) :
    Option (Except Error Operands) :=
  if operators.length > 3 ∨ operators = [] then
    some (.error (.InvalidNumberOperands row operation operators))
  else
    match operators.find? (fun p => REGISTERS.contains p) with
    | some p => some (.error (.InvalidOperand row operation p))
    | none =>
      match operators.get? 0 with
      | none => none
      | some o0 =>
        match parseU8 (removePlus (removeDash o0)) with
        | none => some (.error .ParseIntError)
        | some num1 =>
          match operators.get? 1 with
          | none => none
          | some o1 =>
            match parseU8 (removePlus (removeDash o1)) with
            | none => some (.error .ParseIntError)
            | some num2 =>
              match operators.get? 2 with
              | none => none
              | some o2 =>
                match parseU8 (removePlus (removeDash o2)) with
                | none => some (.error .ParseIntError)
                | some num3 => some (.ok (.V4 num1 num2 num3))

/-- The MOV arm of `validate_operators`. -/
def movArm (row : Nat) (operation : Operation) (operators : List String) :
    Option (Except Error Operands) :=
  if operators.length ≠ 2 then
    some (.error (.InvalidNumberOperands row operation operators))
  else
    match operators.get? 0 with
    | none => none
    | some o0 =>
      if ¬ REGISTERS.contains o0 then
        some (.error (.InvalidOperand row operation o0))
      else
        match Register.from_str o0 with
        | .error e => some (.error e)
        | .ok r1 =>
          match operators.get? 1 with
          | none => none
          | some o1 =>
            if REGISTERS.contains o1 then
              match Register.from_str o1 with
              | .error e => some (.error e)
              | .ok r2 => some (.ok (.V6 r1 r2))
            else
              match parseU8 (removePlus (removeDash o1)) with
              | none => some (.error .ParseIntError)
              | some num => some (.ok (.V5 r1 num))

/-- The SWAP / CMP arm of `validate_operators`. -/
def twoRegArm (row : Nat) (operation : Operation) (operators : List String) :
    Option (Except Error Operands) :=
  if operators.length ≠ 2 then
    some (.error (.InvalidNumberOperands row operation operators))
  else
    match operators.find? (fun p => ¬ REGISTERS.contains p) with
    | some p => some (.error (.InvalidOperand row operation p))
    | none =>
      match operators.get? 0 with
      | none => none
      | some o0 =>
        match Register.from_str o0 with
        | .error e => some (.error e)
        | .ok r1 =>
          match operators.get? 1 with
          | none => none
          | some o1 =>
            match Register.from_str o1 with
            | .error e => some (.error e)
            | .ok r2 => some (.ok (.V6 r1 r2))

/-- The JMP / JE / JNE arm of `validate_operators`: a dash anywhere picks
sign 1 (dashes stripped before parsing), otherwise plus signs are stripped
and sign is 0. -/
def jumpArm (row : Nat) (operation : Operation) (operators : List String) :
    Option (Except Error Operands) :=
  if operators.length ≠ 1 then
    some (.error (.InvalidNumberOperands row operation operators))
  else
    match operators.get? 0 with
    | none => none
    | some o0 =>
      if REGISTERS.contains o0 then
        some (.error (.InvalidOperand row operation o0))
      else if o0.data.contains '-' then
        match parseU8 (removeDash o0) with
        | none => some (.error .ParseIntError)
        | some num => some (.ok (.V1 1 num))
      else
        match parseU8 (removePlus o0) with
        | none => some (.error .ParseIntError)
        | some num => some (.ok (.V1 0 num))

/-- The ADD / SUB / LOAD / STORE / PUSH / POP arm of `validate_operators`. -/
def oneRegArm (row : Nat) (operation : Operation) (operators : List String) :
    Option (Except Error Operands) :=
  if operators.length ≠ 1 then
    some (.error (.InvalidNumberOperands row operation operators))
  else
    match operators.get? 0 with
    | none => none
    | some o0 =>
      if ¬ REGISTERS.contains o0 then
        some (.error (.InvalidOperand row operation o0))
      else
        match Register.from_str o0 with
        | .error e => some (.error e)
        | .ok r => some (.ok (.V2 r))

/-- The INT arm of `validate_operators`. -/
def intArm (row : Nat) (operation : Operation) (operators : List String) :
    Option (Except Error Operands) :=
  if operators.length ≠ 1 then
    some (.error (.InvalidNumberOperands row operation operators))
  else
    match operators.get? 0 with
    | none => none
    | some o0 =>
      if ¬ INTERUPTS.contains o0 then
        some (.error (.InvalidOperand row operation o0))
      else
        match Interupt.from_str o0 with
        | .error e => some (.error e)
        | .ok i => some (.ok (.V3 i))

/-- The INC / DEC arm of `validate_operators`: zero operands give V0, one
register operand gives V2. -/
def incDecArm (row : Nat) (operation : Operation) (operators : List String) :
    Option (Except Error Operands) :=
  if operators.length > 1 then
    some (.error (.InvalidNumberOperands row operation operators))
  else if operators.length = 1 then
    match operators.get? 0 with
    | none => none
    | some o0 =>
      if ¬ REGISTERS.contains o0 then
        some (.error (.InvalidOperand row operation o0))
      else
        match Register.from_str o0 with
        | .error e => some (.error e)
        | .ok r => some (.ok (.V2 r))
  else some (.ok .V0)

/-- `parser::validate_operators`: dispatch on the opcode. -/
def validate_operators (row : Nat) (operation : Operation) (operators : List String) :
    Option (Except Error Operands) :=
  match operation with
  | .PARAM => paramArm row operation operators
  | .MOV => movArm row operation operators
  | .SWAP | .CMP => twoRegArm row operation operators
  | .JMP | .JE | .JNE => jumpArm row operation operators
  | .ADD | .SUB | .LOAD | .STORE | .PUSH | .POP => oneRegArm row operation operators
  | .INT => intArm row operation operators
  | .INC | .DEC => incDecArm row operation operators

/-- Claim C8: the claim says a PARAM line with 1..3 integer operands
parses into V4 with missing values defaulting to 0. The arm's own count
check admits 1..3 operands, but the body then indexes `operators[1]` and
`operators[2]` unconditionally: a one-operand line panics with an
out-of-bounds index (`none`) instead of producing `V4 5 0 0`; only the
three-operand form succeeds. -/
theorem C8_param_missing_operands_panic :
    validate_operators 0 .PARAM ["5"] = none ∧
    validate_operators 0 .PARAM ["5", "8"] = none ∧
    validate_operators 0 .PARAM ["1", "2", "3"] = some (.ok (.V4 1 2 3)) := by
  refine ⟨by decide, by decide, by decide⟩

theorem sliceGet_bounds {l : List Nat} {a b : Nat} {v : List Nat}
    (h : sliceGet l a b = some v) : a ≤ b ∧ b ≤ l.length := by
  by_cases hc : a ≤ b ∧ b ≤ l.length
  · exact hc
  · rw [sliceGet, if_neg hc] at h
    cases h

/-- The slice of emulator state touched by the `Message::Unblock` handler:
the memory bytes, the waiting queue of `(pcb_id, address, size)` triples,
and the display text whose parse becomes the input value. -/
structure UnblockState where
  mem : List Nat
  waiting_queue : List (Nat × Nat × Nat)
  display_content : String
deriving DecidableEq, Repr

/-- The `Message::Unblock` handler of `main.rs`: only when the waiting
queue has a head and the display parses as a `u8` does it deserialize the
head's PCB, set `dx`, mark it Ready, advance `pc` by 6, re-serialize in
place (`copy_from_slice` panics if the byte length changed) and pop the
queue head; otherwise the state is returned untouched. -/
def unblock (st : UnblockState) : Option UnblockState :=
  match st.waiting_queue.head? with
  | none => some st
  | some (_, address, size) =>
    match parseU8 st.display_content with
    | none => some st
    | some num =>
      match sliceGet st.mem address (address + size) with
      | none => none
      | some bs =>
        match pcbDeserialize bs with
        | none => none
        | some pcb =>
          let pcb1 := { pcb with dx := num, process_state := .Ready, pc := pcb.pc + 6 }
          match writeSlice st.mem address (address + size) (pcbSerialize pcb1) with
          | none => none
          | some mem1 => some ⟨mem1, st.waiting_queue.drop 1, st.display_content⟩

/-- Claim C10: an Unblock with an empty waiting queue, or with a display
that does not parse as an 8-bit unsigned integer, leaves the state
unchanged; otherwise exactly the queue head is removed and its PCB is
rewritten in place with `DX` set to the parsed value, `PC` advanced by 6
and state Ready. The serialized-PCB hypotheses express that the head entry
points at a well-formed stored PCB whose record length is preserved by the
update, which holds for every record the Blocked handler enqueues under
the default configuration. -/
theorem C10_unblock_behavior (st : UnblockState) :
    (st.waiting_queue = [] → unblock st = some st) ∧
    (parseU8 st.display_content = none → unblock st = some st) ∧
    (∀ i a s rest v bs p,
      st.waiting_queue = (i, a, s) :: rest →
      parseU8 st.display_content = some v →
      sliceGet st.mem a (a + s) = some bs →
      pcbDeserialize bs = some p →
      (pcbSerialize { p with dx := v, process_state := .Ready, pc := p.pc + 6 }).length = s →
      unblock st = some ⟨listWrite st.mem a
          (pcbSerialize { p with dx := v, process_state := .Ready, pc := p.pc + 6 }),
        rest, st.display_content⟩) := by
  refine ⟨?_, ?_, ?_⟩
  · intro h
    simp [unblock, h]
  · intro h
    cases hq : st.waiting_queue with
    | nil => simp [unblock, hq]
    | cons e rest =>
      rcases e with ⟨i, a, s⟩
      simp [unblock, hq, h]
  · intro i a s rest v bs p hq hp hsl hd hlen
    have hb := sliceGet_bounds hsl
    have hcond : a ≤ a + s ∧ a + s ≤ st.mem.length ∧
        (pcbSerialize { p with dx := v, process_state := .Ready, pc := p.pc + 6 }).length =
          a + s - a := ⟨hb.1, hb.2, by omega⟩
    simp only [unblock, hq, List.head?_cons, hp, hsl, hd]
    rw [writeSlice, if_pos hcond]
    simp [hq]

/-- A Blocked PCB as stored by the Blocked handler, for the C10 witness:
every field fits in one byte, so its record is 22 bytes long before and
after the Unblock update. -/
def c10Pcb : PCB :=
  ⟨1, 130, 6, 136, 5, 131, .Blocked, 0, 1, 2, 3, 4, 5, 136, some .INT, false⟩

theorem C10_unblock_behavior_witness :
    unblock ⟨pcbSerialize c10Pcb, [(1, 0, 22)], "42"⟩ =
      some ⟨listWrite (pcbSerialize c10Pcb) 0
          (pcbSerialize { c10Pcb with dx := 42, process_state := .Ready, pc := c10Pcb.pc + 6 }),
        [], "42"⟩ :=
  (C10_unblock_behavior ⟨pcbSerialize c10Pcb, [(1, 0, 22)], "42"⟩).2.2 1 0 22 [] 42
    (pcbSerialize c10Pcb) c10Pcb rfl (by decide) (by decide) (by decide) (by decide)
